import Mathlib

/-!
# J1939 framework: transport connection-management codec and sender shell

A shallow embedding of `J1939/Transport/TPCMFrame.cpp` (the TP.CM control
frame codec) and of the command-line helpers of
`BinUtils/j1939Sender/src/j1939Sender.cpp`, followed by the properties
established about them.

Conventions of the embedding:

* machine integers are natural numbers; a narrowing conversion of the
  source (`int` to `u8`, `u16` or `u32`) is an explicit `% 2 ^ w`;
* a `u8*` buffer is a `List Nat`; `buffer + k` is an index offset;
* a `std::string` is a `List Char`; `std::string::npos` is `none`;
* a function that may throw returns the state it leaves behind together
  with an `Except` outcome.
-/

namespace J1939

/-! ## Data model -/

/-- Modelled from the spec: the error kinds `DecodeError` and `EncodeError`, which are the
classes `J1939DecodeException` and `J1939EncodeException` the codec and its callers name;
their header is not among the sources. Each carries its message. -/
inductive J1939Exception where
  | decodeException (msg : String)
  | encodeException (msg : String)
  deriving DecidableEq, Repr

deriving instance DecidableEq for Except

/-- The control-type constants `CTRL_TPCM_RTS`, `CTRL_TPCM_CTS`, `CTRL_TPCM_ACK`,
`CTRL_TPCM_ABORT`, `CTRL_TPCM_BAM`. They are declared in `TPCMFrame.h`, which is not
part of the sources at hand, so the codec takes them as a parameter. -/
structure CtrlCodes where
  rts : Nat
  cts : Nat
  ack : Nat
  abort : Nat
  bam : Nat
  deriving DecidableEq, Repr

/-- The five codes as a list, in the order of the `switch` labels. -/
def CtrlCodes.all (c : CtrlCodes) : List Nat :=
  [c.rts, c.cts, c.ack, c.abort, c.bam]

/-- Well-formedness of the constants: they are `case` labels of one `switch` over a
`u8`, hence pairwise distinct, and each fits a byte. -/
def CtrlCodes.Valid (c : CtrlCodes) : Prop :=
  c.all.Nodup ∧ ∀ x ∈ c.all, x < 256

instance (c : CtrlCodes) : Decidable c.Valid := by
  unfold CtrlCodes.Valid; infer_instance

/-- The values SAE J1939-21 assigns to the five control bytes; used for concrete
evaluations. -/
def stdCodes : CtrlCodes :=
  { rts := 16, cts := 17, ack := 19, abort := 255, bam := 32 }

/-- Modelled from the spec: the constant `TP_CM_SIZE` of `TPCMFrame.h`, which is not among
the sources; the five control messages share an 8-byte frame. -/
def TP_CM_SIZE : Nat := 8

/-- The fields of `TPCMFrame`, as the constructor initialises them. -/
structure TPCMFrame where
  mCtrlType : Nat
  mTotalMsgSize : Nat
  mTotalPackets : Nat
  mMaxPackets : Nat
  mPacketsToTx : Nat
  mNextPacket : Nat
  mAbortReason : Nat
  mDataPgn : Nat
  deriving DecidableEq, Repr

/-- The ranges of the field types (declared in `TPCMFrame.h`): `u8` everywhere, `u16` for
the message size and `u32` for the data PGN. -/
def TPCMFrame.WF (f : TPCMFrame) : Prop :=
  f.mCtrlType < 256 ∧ f.mTotalMsgSize < 65536 ∧ f.mTotalPackets < 256 ∧
  f.mMaxPackets < 256 ∧ f.mPacketsToTx < 256 ∧ f.mNextPacket < 256 ∧
  f.mAbortReason < 256 ∧ f.mDataPgn < 4294967296

instance (f : TPCMFrame) : Decidable f.WF := by
  unfold TPCMFrame.WF; infer_instance

/-- The constructor `TPCMFrame::TPCMFrame()`: every field starts at zero. -/
def TPCMFrame.new : TPCMFrame :=
  { mCtrlType := 0, mTotalMsgSize := 0, mTotalPackets := 0, mMaxPackets := 0,
    mPacketsToTx := 0, mNextPacket := 0, mAbortReason := 0, mDataPgn := 0 }

/-- The method `TPCMFrame::clear`. -/
def TPCMFrame.clear (f : TPCMFrame) : TPCMFrame :=
  { f with mCtrlType := 0, mTotalMsgSize := 0, mTotalPackets := 0, mMaxPackets := 0,
           mPacketsToTx := 0, mNextPacket := 0, mAbortReason := 0, mDataPgn := 0 }

/-! ## Buffers -/

/-- A byte buffer. -/
abbrev Buffer := List Nat

/-- Every cell of the buffer holds a `u8`. -/
def Buffer.Bytes (b : Buffer) : Prop := ∀ x ∈ b, x < 256

instance (b : Buffer) : Decidable (Buffer.Bytes b) := by
  unfold Buffer.Bytes; infer_instance

/-- Read of `buffer[i]`. -/
def rd (buffer : Buffer) (i : Nat) : Nat := buffer.getD i 0

/-- Write `buffer[i] = v`. -/
def wr (buffer : Buffer) (i : Nat) (v : Nat) : Buffer := buffer.set i v

/-- The call `memset(buffer, v, n)`: the first `n` cells become the byte `v`. -/
def memset (buffer : Buffer) (v n : Nat) : Buffer :=
  List.replicate n (v % 256) ++ buffer.drop n

/-! ## Decoding -/

/-- The method `TPCMFrame::decodeRTS`, called on `buffer + base`. -/
def decodeRTS (f : TPCMFrame) (buffer : Buffer) (base : Nat) : TPCMFrame :=
  { f with mTotalMsgSize := (rd buffer (base + 0) ||| (rd buffer (base + 1) <<< 8)) % 65536,
           mTotalPackets := rd buffer (base + 2),
           mMaxPackets := rd buffer (base + 3) }

/-- The method `TPCMFrame::decodeCTS`, called on `buffer + base`. -/
def decodeCTS (f : TPCMFrame) (buffer : Buffer) (base : Nat) : TPCMFrame :=
  { f with mPacketsToTx := rd buffer (base + 0),
           mNextPacket := rd buffer (base + 1) }

/-- The method `TPCMFrame::decodeEndOfMsgACK`, called on `buffer + base`. -/
def decodeEndOfMsgACK (f : TPCMFrame) (buffer : Buffer) (base : Nat) : TPCMFrame :=
  { f with mTotalMsgSize := (rd buffer (base + 0) ||| (rd buffer (base + 1) <<< 8)) % 65536,
           mTotalPackets := rd buffer (base + 2) }

/-- The method `TPCMFrame::decodeConnAbort`, called on `buffer + base`. -/
def decodeConnAbort (f : TPCMFrame) (buffer : Buffer) (base : Nat) : TPCMFrame :=
  { f with mAbortReason := rd buffer (base + 0) }

/-- The method `TPCMFrame::decodeBAM`, called on `buffer + base`. -/
def decodeBAM (f : TPCMFrame) (buffer : Buffer) (base : Nat) : TPCMFrame :=
  { f with mTotalMsgSize := (rd buffer (base + 0) ||| (rd buffer (base + 1) <<< 8)) % 65536,
           mTotalPackets := rd buffer (base + 2) }

/-- The assignment `mDataPgn = buffer[5] | (buffer[6] << 8) | (buffer[7] << 16)`. -/
def decodePgn (f : TPCMFrame) (buffer : Buffer) : TPCMFrame :=
  { f with mDataPgn :=
      (rd buffer 5 ||| (rd buffer 6 <<< 8) ||| (rd buffer 7 <<< 16)) % 4294967296 }

/-- The method `TPCMFrame::decodeData`. The result is the frame as the call leaves it and the
outcome: on an unknown control byte the control type has already been stored when the
exception is thrown. -/
def decodeData (codes : CtrlCodes) (f : TPCMFrame) (buffer : Buffer) :
    TPCMFrame × Except J1939Exception Unit :=
  let f1 := { f with mCtrlType := rd buffer 0 }
  if f1.mCtrlType = codes.rts then (decodePgn (decodeRTS f1 buffer 1) buffer, .ok ())
  else if f1.mCtrlType = codes.cts then (decodePgn (decodeCTS f1 buffer 1) buffer, .ok ())
  else if f1.mCtrlType = codes.ack then
    (decodePgn (decodeEndOfMsgACK f1 buffer 1) buffer, .ok ())
  else if f1.mCtrlType = codes.abort then
    (decodePgn (decodeConnAbort f1 buffer 1) buffer, .ok ())
  else if f1.mCtrlType = codes.bam then (decodePgn (decodeBAM f1 buffer 1) buffer, .ok ())
  else (f1, .error (.decodeException "[TPCMFrame::decodeData] Unknown Ctrl type"))

/-! ## Encoding -/

/-- The method `TPCMFrame::encodeRTS`, called on `buffer + base`. -/
def encodeRTS (f : TPCMFrame) (buffer : Buffer) (base : Nat) : Buffer :=
  let b0 := wr buffer (base + 0) ((f.mTotalMsgSize &&& 0xFF) % 256)
  let b1 := wr b0 (base + 1) (((f.mTotalMsgSize >>> 8) &&& 0xFF) % 256)
  let b2 := wr b1 (base + 2) f.mTotalPackets
  wr b2 (base + 3) f.mMaxPackets

/-- The method `TPCMFrame::encodeCTS`, called on `buffer + base`. -/
def encodeCTS (f : TPCMFrame) (buffer : Buffer) (base : Nat) : Buffer :=
  let b0 := wr buffer (base + 0) f.mPacketsToTx
  wr b0 (base + 1) f.mNextPacket

/-- The method `TPCMFrame::encodeEndOfMsgACK`, called on `buffer + base`. -/
def encodeEndOfMsgACK (f : TPCMFrame) (buffer : Buffer) (base : Nat) : Buffer :=
  let b0 := wr buffer (base + 0) ((f.mTotalMsgSize &&& 0xFF) % 256)
  let b1 := wr b0 (base + 1) (((f.mTotalMsgSize >>> 8) &&& 0xFF) % 256)
  wr b1 (base + 2) f.mMaxPackets

/-- The method `TPCMFrame::encodeConnAbort`, called on `buffer + base`. -/
def encodeConnAbort (f : TPCMFrame) (buffer : Buffer) (base : Nat) : Buffer :=
  wr buffer (base + 0) f.mAbortReason

/-- The method `TPCMFrame::encodeBAM`, called on `buffer + base`. -/
def encodeBAM (f : TPCMFrame) (buffer : Buffer) (base : Nat) : Buffer :=
  let b0 := wr buffer (base + 0) ((f.mTotalMsgSize &&& 0xFF) % 256)
  let b1 := wr b0 (base + 1) (((f.mTotalMsgSize >>> 8) &&& 0xFF) % 256)
  wr b1 (base + 2) f.mMaxPackets

/-- The three trailing stores of `encodeData`: the data PGN, low byte first. -/
def encodePgn (f : TPCMFrame) (buffer : Buffer) : Buffer :=
  let b5 := wr buffer 5 ((f.mDataPgn &&& 0xFF) % 256)
  let b6 := wr b5 6 (((f.mDataPgn >>> 8) &&& 0xFF) % 256)
  wr b6 7 (((f.mDataPgn >>> 16) &&& 0xFF) % 256)

/-- The method `TPCMFrame::encodeData`. The result is the buffer as the call leaves it and the
outcome: on an unknown control type the buffer has been filled with `0xFF` and its first
byte written when the exception is thrown. -/
def encodeData (codes : CtrlCodes) (f : TPCMFrame) (buffer : Buffer) :
    Buffer × Except J1939Exception Unit :=
  let b := wr (memset buffer 0xFF TP_CM_SIZE) 0 f.mCtrlType
  if f.mCtrlType = codes.rts then (encodePgn f (encodeRTS f b 1), .ok ())
  else if f.mCtrlType = codes.cts then (encodePgn f (encodeCTS f b 1), .ok ())
  else if f.mCtrlType = codes.ack then (encodePgn f (encodeEndOfMsgACK f b 1), .ok ())
  else if f.mCtrlType = codes.abort then (encodePgn f (encodeConnAbort f b 1), .ok ())
  else if f.mCtrlType = codes.bam then (encodePgn f (encodeBAM f b 1), .ok ())
  else (b, .error (.decodeException "[TPCMFrame::encodeData] Unknown Ctrl Type"))

/-! ## Concrete frames used in evaluations -/

/-- The RTS frame of the 20-byte scenario: control type, message size, packet count and
data PGN are set on a freshly constructed frame; `mMaxPackets` keeps the constructor's
value. -/
def rtsScenario : TPCMFrame :=
  { TPCMFrame.new with mCtrlType := 0x10, mTotalMsgSize := 20, mTotalPackets := 3,
                       mDataPgn := 0x00FECA }

/-- A BAM frame announcing 20 bytes in 3 packets; `mMaxPackets` keeps the constructor's
value. -/
def bamScenario : TPCMFrame :=
  { TPCMFrame.new with mCtrlType := stdCodes.bam, mTotalMsgSize := 20, mTotalPackets := 3,
                       mDataPgn := 0x00FECA }

/-- An EndOfMsgACK frame confirming 20 bytes in 3 packets; `mMaxPackets` keeps the
constructor's value. -/
def ackScenario : TPCMFrame :=
  { TPCMFrame.new with mCtrlType := stdCodes.ack, mTotalMsgSize := 20, mTotalPackets := 3,
                       mDataPgn := 0x00FECA }

/-- A CTS frame granting 2 packets from packet 1 on. -/
def ctsScenario : TPCMFrame :=
  { TPCMFrame.new with mCtrlType := stdCodes.cts, mPacketsToTx := 2, mNextPacket := 1,
                       mDataPgn := 0x00FECA }

/-- An 8-byte buffer of zeros. -/
def zeroBuffer : Buffer := List.replicate 8 0

/-! ## The frame header fields -/

/-- Modelled from the spec: the class `J1939Frame` of `J1939Frame.h`, which is not among
the sources, reduced to the header fields priority, PGN and source address. -/
structure J1939Frame where
  mPriority : Nat
  mPgn : Nat
  mSrcAddr : Nat
  deriving DecidableEq, Repr

/-- Modelled from the spec: the constant `J1939_PRIORITY_MASK` of `J1939Frame.h`, which is
not among the sources; the priority has three bits. -/
def J1939_PRIORITY_MASK : Nat := 0x07

/-- Modelled from the spec: the constant `J1939_SRC_ADDR_MASK` of `J1939Frame.h`, which
is not among the sources; the source address has eight bits. -/
def J1939_SRC_ADDR_MASK : Nat := 0xFF

/-- Modelled from the spec: the setter `J1939Frame::setPriority` of `J1939Frame.h`, which
is not among the sources; it stores its `u8` argument as the frame's priority. -/
def J1939Frame.setPriority (frame : J1939Frame) (priority : Nat) : J1939Frame :=
  { frame with mPriority := priority }

/-- Modelled from the spec: the setter `J1939Frame::setSrcAddr` of `J1939Frame.h`, which
is not among the sources; it stores its `u8` argument as the frame's source address. -/
def J1939Frame.setSrcAddr (frame : J1939Frame) (src : Nat) : J1939Frame :=
  { frame with mSrcAddr := src }

end J1939

namespace Sender

open J1939

/-! ## The set-frame command: the parameter handler -/

/-- The exceptions of the standard library that `std::stoul` throws. -/
inductive StdException where
  | invalidArgument
  | outOfRange
  deriving DecidableEq, Repr

/-- The largest `unsigned long`, for the 64-bit `unsigned long` of an LP64 platform. -/
def ULONG_MAX : Nat := 18446744073709551615

/-- The library predicate `isspace` in the C locale: the space and the five control
characters from tab to carriage return. -/
def isspace (c : Char) : Bool :=
  c.toNat = 32 || (9 ≤ c.toNat && c.toNat ≤ 13)

/-- The value of a character as a digit: `0`-`9`, then the letters of either case from 10
on. -/
def digitValue (c : Char) : Option Nat :=
  if 48 ≤ c.toNat ∧ c.toNat ≤ 57 then some (c.toNat - 48)
  else if 97 ≤ c.toNat ∧ c.toNat ≤ 122 then some (c.toNat - 97 + 10)
  else if 65 ≤ c.toNat ∧ c.toNat ≤ 90 then some (c.toNat - 65 + 10)
  else none

/-- The digits, valid in the given base, a string starts with. -/
def leadingDigits (base : Nat) : List Char → List Nat
  | [] => []
  | c :: cs =>
    match digitValue c with
    | some d => if d < base then d :: leadingDigits base cs else []
    | none => []

/-- The optional prefix `0x` or `0X` of a number in base 16 is dropped when a hexadecimal
digit follows it. -/
def skipHexPrefix (s : List Char) : List Char :=
  match s with
  | '0' :: x :: d :: rest =>
    if (x = 'x' ∨ x = 'X') ∧ leadingDigits 16 [d] ≠ [] then d :: rest else s
  | _ => s

/-- The library function `std::stoul(str, nullptr, base)` for base 10 or 16, as the
standard defines it through `strtoul`: leading white space is skipped, a sign and (in base
16) a prefix `0x` are optional, the longest run of digits is read and what follows it is
ignored; without a digit `std::invalid_argument` is thrown, for a number above `ULONG_MAX`
`std::out_of_range`; a number after a minus sign is negated as an `unsigned long`. -/
def stoul (str : List Char) (base : Nat) : Except StdException Nat :=
  let s := str.dropWhile isspace
  let negative := s.head? = some '-'
  let s1 := if s.head? = some '-' ∨ s.head? = some '+' then s.tail else s
  let s2 := if base = 16 then skipHexPrefix s1 else s1
  let digits := leadingDigits base s2
  if digits = [] then .error .invalidArgument
  else
    let n := digits.foldl (fun acc d => acc * base + d) 0
    if ULONG_MAX < n then .error .outOfRange
    else .ok (if negative then (ULONG_MAX + 1 - n) % (ULONG_MAX + 1) else n)

/-- What the parameter handler of `parseSetFrameCommand` works on: the header fields of the
frame, the entry of `framePeriods` for the frame's name (`none` when there is none), and
the part `spns` that only the `spn` and `value` branches touch (the SPNs of the frame and
the local pointer `spn`). -/
structure SetFrameState (S : Type) where
  frame : J1939Frame
  period : Option Nat
  spns : S
  deriving DecidableEq, Repr

/-- The result of one call of the parameter handler: the state it leaves, the lines written
to `std::cerr`, and the exception that leaves the handler uncaught, if any. -/
structure ParamResult (S : Type) where
  state : SetFrameState S
  cerr : List String
  outcome : Except StdException Unit
  deriving DecidableEq

/-- The `priority` branch of the parameter handler of `parseSetFrameCommand`: the result of
`std::stoul` is narrowed to the `u32` local before the mask test; only
`std::invalid_argument` is caught. -/
def setFramePriority {S : Type} (value : List Char) (st : SetFrameState S) : ParamResult S :=
  match stoul value 10 with
  | .ok parsed =>
    let priority := parsed % 4294967296
    if priority = (priority &&& J1939_PRIORITY_MASK) then
      ⟨{ st with frame := st.frame.setPriority (priority % 256) }, [], .ok ()⟩
    else
      ⟨st, ["Priority out of range"], .ok ()⟩
  | .error .invalidArgument => ⟨st, ["Priority is not a number..."], .ok ()⟩
  | .error .outOfRange => ⟨st, [], .error .outOfRange⟩

/-- The `period` branch of the parameter handler of `parseSetFrameCommand`. -/
def setFramePeriod {S : Type} (value : List Char) (st : SetFrameState S) : ParamResult S :=
  match stoul value 10 with
  | .ok parsed => ⟨{ st with period := some (parsed % 4294967296) }, [], .ok ()⟩
  | .error .invalidArgument => ⟨st, ["Period is not a number..."], .ok ()⟩
  | .error .outOfRange => ⟨st, [], .error .outOfRange⟩

/-- The `source` branch of the parameter handler of `parseSetFrameCommand`: the number is
read in base 16 and narrowed to the `u32` local before the mask test; only
`std::invalid_argument` is caught. -/
def setFrameSource {S : Type} (value : List Char) (st : SetFrameState S) : ParamResult S :=
  match stoul value 16 with
  | .ok parsed =>
    let src := parsed % 4294967296
    if src = (src &&& J1939_SRC_ADDR_MASK) then
      ⟨{ st with frame := st.frame.setSrcAddr (src % 256) }, [], .ok ()⟩
    else
      ⟨st, ["Source address out of range"], .ok ()⟩
  | .error .invalidArgument => ⟨st, ["Source address is not a number..."], .ok ()⟩
  | .error .outOfRange => ⟨st, [], .error .outOfRange⟩

/-- The parameter handler of `parseSetFrameCommand` (the lambda `func`): the key selects the
branch. The branches for `spn` and `value` work on the classes `SPN`, `SPNNumeric` and
`SPNStatus` and on `std::stod`, which are not among the sources; they are the parameters
`spnBranch` and `valueBranch`. -/
def setFrameParam {S : Type}
    (spnBranch valueBranch : List Char → SetFrameState S → ParamResult S)
    (key value : List Char) (st : SetFrameState S) : ParamResult S :=
  if key = "priority".toList then setFramePriority value st
  else if key = "period".toList then setFramePeriod value st
  else if key = "spn".toList then spnBranch value st
  else if key = "value".toList then valueBranch value st
  else if key = "source".toList then setFrameSource value st
  else ⟨st, ["Unknown parameter..."], .ok ()⟩

/-- A state for evaluations: priority 6, PGN `0xFECA`, source address `0x11`, no period,
and nothing for the `spn` and `value` branches to work on. -/
def sampleState : SetFrameState Unit :=
  { frame := ⟨6, 0xFECA, 0x11⟩, period := none, spns := () }

/-- A branch that leaves the state as it is; it fills the places of the `spn` and `value`
branches in evaluations. -/
def idleBranch {S : Type} (_value : List Char) (st : SetFrameState S) : ParamResult S :=
  ⟨st, [], .ok ()⟩

/-! ## Strings -/

/-- Index of the first character satisfying `p` in `s`, counted from `i`. -/
def findAux (p : Char → Bool) : List Char → Nat → Option Nat
  | [], _ => none
  | c :: cs, i => if p c then some i else findAux p cs (i + 1)

/-- The call `s.find_first_of(c, pos)`: the least index at or after `pos` holding `c`. -/
def find_first_of (s : List Char) (c : Char) (pos : Nat) : Option Nat :=
  findAux (fun x => x == c) (s.drop pos) pos

/-- The call `s.find_first_not_of(c, pos)`: the least index at or after `pos` holding a
character other than `c`. -/
def find_first_not_of (s : List Char) (c : Char) (pos : Nat) : Option Nat :=
  findAux (fun x => x != c) (s.drop pos) pos

/-- The call `s.substr(pos, len)` for `pos` within the string; a length of `npos` takes
the rest of the string. -/
def substr (s : List Char) (pos : Nat) (len : Option Nat) : List Char :=
  match len with
  | none => s.drop pos
  | some n => (s.drop pos).take n

/-- The `while` loop of `splitTokens`: `startArgPos` is `none` once it equals `npos`. The
first argument bounds the number of iterations; `none` is returned if it is used up. -/
def splitLoop (arguments : List Char) :
    Nat → Option Nat → List (List Char) → Option (List (List Char))
  | _, none, retVal => some retVal
  | 0, some _, _ => none
  | fuel + 1, some startArgPos, retVal =>
    let endArgPos :=
      match find_first_of arguments ' ' startArgPos with
      | none => arguments.length
      | some e => e
    splitLoop arguments fuel (find_first_not_of arguments ' ' endArgPos)
      (retVal ++ [substr arguments startArgPos (some (endArgPos - startArgPos))])

/-- The function `splitTokens`. Every iteration moves `startArgPos` forward, so one more
iteration than the string has characters is enough (see `splitLoop_total`). -/
def splitTokens (arguments : List Char) : List (List Char) :=
  (splitLoop arguments (arguments.length + 1) (some 0) []).getD []

/-- The tokens of a string in the words of the declaration comment of `splitTokens`: the
maximal runs of characters other than the space, in order. -/
def tokenRuns : List Char → List (List Char)
  | [] => []
  | c :: cs =>
    if c = ' ' then tokenRuns cs
    else if cs.head? = some ' ' then [c] :: tokenRuns cs
    else
      match tokenRuns cs with
      | r :: rs => (c :: r) :: rs
      | [] => [[c]]

/-! ## The command tree -/

/-- The handlers registered without arguments (`CmdFunc`). -/
inductive CmdFunc where
  | parseQuitCommand
  | parseListFramesCommand
  | parseListCommandsCommand
  | parseListInterfacesCommand
  deriving DecidableEq, Repr

/-- The handlers registered with arguments (`CmdFuncWithArgs`). -/
inductive CmdFuncWithArgs where
  | parseCreateFrameCommand
  | parsePrintFrameCommand
  | parseSetFrameCommand
  | parseSendFrameCommand
  | parseExecCommand
  | parseUnsendFrameCommand
  deriving DecidableEq, Repr

/-- The class `CommandHelper`: a command word, at most one handler of either kind, and the
sub-commands in registration order. -/
inductive CommandHelper where
  | mk (mCommand : List Char) (mCmdFunc : Option CmdFunc)
      (mCmdFuncWithArgs : Option CmdFuncWithArgs) (mSubCommands : List CommandHelper)

/-- The accessor `getCommand`. -/
def CommandHelper.getCommand : CommandHelper → List Char
  | .mk c _ _ _ => c

/-- The accessor `getCmdFunc`. -/
def CommandHelper.getCmdFunc : CommandHelper → Option CmdFunc
  | .mk _ f _ _ => f

/-- The accessor `getCmdFuncWithArgs`. -/
def CommandHelper.getCmdFuncWithArgs : CommandHelper → Option CmdFuncWithArgs
  | .mk _ _ f _ => f

/-- The accessor `getSubCommands`. -/
def CommandHelper.getSubCommands : CommandHelper → List CommandHelper
  | .mk _ _ _ subs => subs

/-- The method `addSubCommand`. -/
def CommandHelper.addSubCommand : CommandHelper → CommandHelper → CommandHelper
  | .mk c f g subs, command => .mk c f g (subs ++ [command])

/-- The constructor `CommandHelper(command)`. -/
def CommandHelper.plain (command : String) : CommandHelper :=
  .mk command.toList none none []

/-- The constructor `CommandHelper(command, func)` for a handler without arguments. -/
def CommandHelper.withFunc (command : String) (func : CmdFunc) : CommandHelper :=
  .mk command.toList (some func) none []

/-- The constructor `CommandHelper(command, func)` for a handler with arguments. -/
def CommandHelper.withArgsFunc (command : String) (func : CmdFuncWithArgs) : CommandHelper :=
  .mk command.toList none (some func) []

/-- The global `baseCommand` after `registerCommands`. -/
def baseCommand : CommandHelper :=
  (((((((((CommandHelper.plain "").addSubCommand
    ((CommandHelper.plain "create").addSubCommand
      (CommandHelper.withArgsFunc "frame" .parseCreateFrameCommand))).addSubCommand
    (CommandHelper.withFunc "quit" .parseQuitCommand)).addSubCommand
    ((((CommandHelper.plain "list").addSubCommand
        (CommandHelper.withFunc "frames" .parseListFramesCommand)).addSubCommand
        (CommandHelper.withFunc "commands" .parseListCommandsCommand)).addSubCommand
        (CommandHelper.withFunc "interfaces" .parseListInterfacesCommand))).addSubCommand
    ((CommandHelper.plain "print").addSubCommand
      (CommandHelper.withArgsFunc "frame" .parsePrintFrameCommand))).addSubCommand
    ((CommandHelper.plain "set").addSubCommand
      (CommandHelper.withArgsFunc "frame" .parseSetFrameCommand))).addSubCommand
    ((CommandHelper.plain "send").addSubCommand
      (CommandHelper.withArgsFunc "frame" .parseSendFrameCommand))).addSubCommand
    (CommandHelper.withArgsFunc "exec" .parseExecCommand)).addSubCommand
    ((CommandHelper.plain "unsend").addSubCommand
      (CommandHelper.withArgsFunc "frame" .parseUnsendFrameCommand)))

/-- The function `findSubCommand`: the command reached and the tokens left in `args`. -/
def findSubCommand : CommandHelper → List (List Char) → CommandHelper × List (List Char)
  | cmd, [] => (cmd, [])
  | cmd, arg :: rest =>
    match cmd.getSubCommands.find? (fun sub => sub.getCommand == arg) with
    | some sub => findSubCommand sub rest
    | none => (cmd, arg :: rest)

/-- What a call of `parseLine` does: nothing, a line on `std::cerr`, or a call of a
handler. -/
inductive LineEffect where
  | nothing
  | stderr (msg : String)
  | callWithArgs (func : CmdFuncWithArgs) (tokens : List (List Char))
  | call (func : CmdFunc)
  deriving DecidableEq, Repr

/-- The tokens `parseLine` computes from a line: `splitTokens(line.substr(0, found))` with
`found = line.find_first_of('#')`. -/
def lineTokens (line : List Char) : List (List Char) :=
  splitTokens (substr line 0 (find_first_of line '#' 0))

/-- The tail of `parseLine`, from the result of `findSubCommand` on. The local
`arguments` of the source is never filled, so the last message always reads
"does need arguments". -/
def dispatch (found : CommandHelper × List (List Char)) : LineEffect :=
  let cmd := found.1
  let tokens := found.2
  if cmd.getCmdFuncWithArgs = none ∧ cmd.getCmdFunc = none then
    .stderr "This command does not exist"
  else
    match tokens.isEmpty, cmd.getCmdFuncWithArgs, cmd.getCmdFunc with
    | false, some func, _ => .callWithArgs func tokens
    | true, _, some func => .call func
    | _, _, _ => .stderr "This command does need arguments"

/-- The function `parseLine`, over the command tree `base`. -/
def parseLine (base : CommandHelper) (line : List Char) : LineEffect :=
  if line.isEmpty then .nothing
  else dispatch (findSubCommand base (lineTokens line))

/-! ## Command parameters -/

/-- The call `s.find(c)`: the least index holding `c`, `npos` when there is none. -/
def find (s : List Char) (c : Char) : Option Nat :=
  findAux (fun x => x == c) s 0

/-- The expression `key.size() - 1`, computed in `size_t`: for the empty string the
subtraction wraps around to the largest value of the type, which is `npos`. -/
def sizeMinusOne (key : List Char) : Option Nat :=
  if key.isEmpty then none else some (key.length - 1)

/-- The function `processCommandParameters`. The callback `parserFunc` acts on a state of
the caller; the result is the state after the calls and the lines written to `std::cerr`. -/
def processCommandParameters {σ : Type} (parserFunc : List Char → List Char → σ → σ) :
    List (List Char) → σ → σ × List String
  | [], st => (st, [])
  | [key], st =>
    if find key ':' = sizeMinusOne key then
      (st, ["Incomplete arguments for this command"])
    else
      (st, ["Necessary to add a colon at the end"])
  | key :: value :: arguments, st =>
    if find key ':' = sizeMinusOne key then
      processCommandParameters parserFunc arguments
        (parserFunc (substr key 0 (sizeMinusOne key)) value st)
    else
      (st, ["Necessary to add a colon at the end"])

/-- A callback that records the pair it is called with. -/
def recordCall (key value : List Char) (calls : List (List Char × List Char)) :
    List (List Char × List Char) :=
  calls ++ [(key, value)]

/-- The calls `processCommandParameters` makes on an argument list, in order. -/
def paramCalls (arguments : List (List Char)) : List (List Char × List Char) :=
  (processCommandParameters recordCall arguments []).1

/-- The first sub-command of `cmd` whose name equals `token`: a sub-command with that name
such that no sub-command registered before it has the name. -/
def FirstSub (cmd : CommandHelper) (token : List Char) (sub : CommandHelper) : Prop :=
  ∃ before after, cmd.getSubCommands = before ++ sub :: after ∧ sub.getCommand = token ∧
    ∀ x ∈ before, x.getCommand ≠ token

/-- The command reached from `cmd` by descending, token after token, into the first
sub-command named by the token. -/
inductive Descends : CommandHelper → List (List Char) → CommandHelper → Prop where
  | stay (cmd : CommandHelper) : Descends cmd [] cmd
  | step {cmd sub target : CommandHelper} {token : List Char} {tokens : List (List Char)} :
      FirstSub cmd token sub → Descends sub tokens target →
      Descends cmd (token :: tokens) target

end Sender

namespace J1939

/-! ## Auxiliary facts -/

theorem length_eight {α : Type} (l : List α) (h : l.length = 8) :
    ∃ a b c d e f g k, l = [a, b, c, d, e, f, g, k] := by
  match l, h with
  | [a, b, c, d, e, f, g, k], _ => exact ⟨a, b, c, d, e, f, g, k, rfl⟩

theorem Valid.distinct {c : CtrlCodes} (h : c.Valid) :
    c.rts ≠ c.cts ∧ c.rts ≠ c.ack ∧ c.rts ≠ c.abort ∧ c.rts ≠ c.bam ∧
    c.cts ≠ c.ack ∧ c.cts ≠ c.abort ∧ c.cts ≠ c.bam ∧
    c.ack ≠ c.abort ∧ c.ack ≠ c.bam ∧ c.abort ≠ c.bam := by
  have h1 := h.1
  simp only [CtrlCodes.all, List.nodup_cons, List.mem_cons, List.mem_singleton,
    List.not_mem_nil, not_or, List.nodup_nil, not_false_eq_true, and_true, or_false] at h1
  tauto

theorem and_255 (x : Nat) : x &&& 255 = x % 256 :=
  Nat.and_pow_two_sub_one_eq_mod x 8

theorem or_shl8 (a b : Nat) (ha : a < 256) : a ||| (b <<< 8) = a + 256 * b := by
  have h := Nat.mul_add_lt_is_or (i := 8) ha b
  rw [Nat.shiftLeft_eq, Nat.lor_comm, Nat.mul_comm, ← h]
  omega

theorem or_shl16 (a b : Nat) (ha : a < 65536) : a ||| (b <<< 16) = a + 65536 * b := by
  have h := Nat.mul_add_lt_is_or (i := 16) ha b
  rw [Nat.shiftLeft_eq, Nat.lor_comm, Nat.mul_comm, ← h]
  omega

/-- Two little-endian bytes written from a `u16` read back as the same value. -/
theorem le16_roundtrip (s : Nat) (hs : s < 65536) :
    ((s &&& 0xFF) % 256 ||| ((((s >>> 8) &&& 0xFF) % 256) <<< 8)) % 65536 = s := by
  have h1 : (s &&& 0xFF) = s % 256 := and_255 s
  have h2 : ((s >>> 8) &&& 0xFF) = (s / 256) % 256 := by
    rw [Nat.shiftRight_eq_div_pow]; exact and_255 _
  rw [h1, h2, or_shl8 _ _ (by omega)]
  omega

/-- Three little-endian bytes written from a value below `2 ^ 24` read back as the same
value. -/
theorem le24_roundtrip (p : Nat) (hp : p < 16777216) :
    ((p &&& 0xFF) % 256 ||| ((((p >>> 8) &&& 0xFF) % 256) <<< 8)
      ||| ((((p >>> 16) &&& 0xFF) % 256) <<< 16)) % 4294967296 = p := by
  have h1 : (p &&& 0xFF) = p % 256 := and_255 p
  have h2 : ((p >>> 8) &&& 0xFF) = (p / 256) % 256 := by
    rw [Nat.shiftRight_eq_div_pow]; exact and_255 _
  have h3 : ((p >>> 16) &&& 0xFF) = (p / 65536) % 256 := by
    rw [Nat.shiftRight_eq_div_pow]; exact and_255 _
  rw [h1, h2, h3, or_shl8 _ _ (by omega), or_shl16 _ _ (by omega)]
  omega

/-! ## Properties of the TP.CM codec -/

/-- C1 (as stated, refuted): the RTS scenario frame does not encode to
`[0x10, 0x14, 0x00, 0x03, 0xFF, 0xCA, 0xFE, 0x00]`; the byte after the packet count is
the constructor's `mMaxPackets`, which is `0`, not `0xFF`. -/
theorem c1_rts_scenario_not_ff :
    (encodeData stdCodes rtsScenario zeroBuffer).1
      ≠ [0x10, 0x14, 0x00, 0x03, 0xFF, 0xCA, 0xFE, 0x00] := by
  decide

/-- C1 (amended): with RTS being `0x10`, the RTS scenario frame encodes, over any 8-byte
buffer, to exactly `[0x10, 0x14, 0x00, 0x03, 0x00, 0xCA, 0xFE, 0x00]`. -/
theorem c1_rts_scenario_bytes (codes : CtrlCodes) (buffer : Buffer)
    (hrts : codes.rts = 0x10) (hlen : buffer.length = 8) :
    encodeData codes rtsScenario buffer
      = ([0x10, 0x14, 0x00, 0x03, 0x00, 0xCA, 0xFE, 0x00], .ok ()) := by
  obtain ⟨a, b, c, d, e, f, g, k, rfl⟩ := length_eight buffer hlen
  simp [encodeData, rtsScenario, TPCMFrame.new, hrts, encodePgn, encodeRTS, wr, memset,
    TP_CM_SIZE]
  decide

/-- Witness of C1 (amended) at the standard codes and the zero buffer. -/
theorem c1_rts_scenario_bytes_witness :
    stdCodes.rts = 0x10 ∧ zeroBuffer.length = 8 ∧
    encodeData stdCodes rtsScenario zeroBuffer
      = ([0x10, 0x14, 0x00, 0x03, 0x00, 0xCA, 0xFE, 0x00], .ok ()) :=
  ⟨by decide, by decide, c1_rts_scenario_bytes stdCodes zeroBuffer (by decide) (by decide)⟩

/-- C2 (evaluation at the failing input): a BAM frame with `mTotalPackets = 3` and
`mMaxPackets = 0` encodes with byte 3 equal to `0`, the max-packets field, and not to
the total-packets field; decoding the bytes into a cleared frame yields
`mTotalPackets = 0`. Whatever the control codes, byte 3 of an encoded BAM frame is its
max-packets field. -/
theorem c2_bam_byte3_is_max_packets :
    (encodeData stdCodes bamScenario zeroBuffer)
      = ([0x20, 0x14, 0x00, 0x00, 0xFF, 0xCA, 0xFE, 0x00], .ok ()) ∧
    rd (encodeData stdCodes bamScenario zeroBuffer).1 3 = bamScenario.mMaxPackets ∧
    rd (encodeData stdCodes bamScenario zeroBuffer).1 3 ≠ bamScenario.mTotalPackets ∧
    (decodeData stdCodes (TPCMFrame.clear bamScenario)
      (encodeData stdCodes bamScenario zeroBuffer).1).1.mTotalPackets = 0 ∧
    (∀ (codes : CtrlCodes) (f : TPCMFrame) (buffer : Buffer), codes.Valid →
      buffer.length = 8 → f.mCtrlType = codes.bam →
      rd (encodeData codes f buffer).1 3 = f.mMaxPackets) := by
  refine ⟨by decide, by decide, by decide, by decide, ?_⟩
  intro codes f buffer hv hlen hk
  obtain ⟨b0, b1, b2, b3, b4, b5, b6, b7, rfl⟩ := length_eight buffer hlen
  obtain ⟨h1, h2, h3, h4, h5, h6, h7, h8, h9, h10⟩ := Valid.distinct hv
  simp [encodeData, hk, encodePgn, encodeBAM, wr, rd, memset, TP_CM_SIZE, Ne.symm h4,
    Ne.symm h7, Ne.symm h9, Ne.symm h10]

/-- C3 (evaluation at the failing input): an EndOfMsgACK frame with `mTotalPackets = 3`
and `mMaxPackets = 0` encodes with byte 3 equal to `0`, the max-packets field; decoding
the bytes into a cleared frame succeeds and yields `mTotalPackets = 0`, not `3`. Whatever
the control codes, byte 3 of an encoded EndOfMsgACK frame is its max-packets field. -/
theorem c3_ack_byte3_is_max_packets :
    (encodeData stdCodes ackScenario zeroBuffer)
      = ([0x13, 0x14, 0x00, 0x00, 0xFF, 0xCA, 0xFE, 0x00], .ok ()) ∧
    rd (encodeData stdCodes ackScenario zeroBuffer).1 3 ≠ ackScenario.mTotalPackets ∧
    (decodeData stdCodes (TPCMFrame.clear ackScenario)
      (encodeData stdCodes ackScenario zeroBuffer).1).2 = .ok () ∧
    (decodeData stdCodes (TPCMFrame.clear ackScenario)
      (encodeData stdCodes ackScenario zeroBuffer).1).1.mTotalPackets
        ≠ ackScenario.mTotalPackets ∧
    (∀ (codes : CtrlCodes) (f : TPCMFrame) (buffer : Buffer), codes.Valid →
      buffer.length = 8 → f.mCtrlType = codes.ack →
      rd (encodeData codes f buffer).1 3 = f.mMaxPackets) := by
  refine ⟨by decide, by decide, by decide, by decide, ?_⟩
  intro codes f buffer hv hlen hk
  obtain ⟨b0, b1, b2, b3, b4, b5, b6, b7, rfl⟩ := length_eight buffer hlen
  obtain ⟨h1, h2, h3, h4, h5, h6, h7, h8, h9, h10⟩ := Valid.distinct hv
  simp [encodeData, hk, encodePgn, encodeEndOfMsgACK, wr, rd, memset, TP_CM_SIZE,
    Ne.symm h2, Ne.symm h5]

/-- C4: for a frame whose control type is one of the known codes, over any 8-byte buffer,
`encodeData` succeeds, leaves 8 bytes, and the bytes between the type-specific fields and
the data PGN are `0xFF`: bytes 3-4 for CTS, bytes 2-4 for ConnAbort, byte 4 for
EndOfMsgACK and for BAM. -/
theorem c4_unused_bytes_ff (codes : CtrlCodes) (f : TPCMFrame) (buffer : Buffer)
    (hv : codes.Valid) (hlen : buffer.length = 8) (hknown : f.mCtrlType ∈ codes.all) :
    (encodeData codes f buffer).2 = .ok () ∧
    (encodeData codes f buffer).1.length = 8 ∧
    (f.mCtrlType = codes.cts →
      rd (encodeData codes f buffer).1 3 = 0xFF ∧ rd (encodeData codes f buffer).1 4 = 0xFF) ∧
    (f.mCtrlType = codes.abort →
      rd (encodeData codes f buffer).1 2 = 0xFF ∧ rd (encodeData codes f buffer).1 3 = 0xFF ∧
      rd (encodeData codes f buffer).1 4 = 0xFF) ∧
    (f.mCtrlType = codes.ack → rd (encodeData codes f buffer).1 4 = 0xFF) ∧
    (f.mCtrlType = codes.bam → rd (encodeData codes f buffer).1 4 = 0xFF) := by
  obtain ⟨a, b, c, d, e, g, h, k, rfl⟩ := length_eight buffer hlen
  obtain ⟨h1, h2, h3, h4, h5, h6, h7, h8, h9, h10⟩ := Valid.distinct hv
  simp only [CtrlCodes.all, List.mem_cons, List.mem_singleton, List.not_mem_nil,
    or_false] at hknown
  rcases hknown with hk | hk | hk | hk | hk <;>
    simp [encodeData, hk, encodePgn, encodeRTS, encodeCTS, encodeEndOfMsgACK,
      encodeConnAbort, encodeBAM, wr, rd, memset, TP_CM_SIZE, h1, h2, h3, h4, h5, h6, h7,
      h8, h9, h10, Ne.symm h1, Ne.symm h2, Ne.symm h3, Ne.symm h4, Ne.symm h5, Ne.symm h6,
      Ne.symm h7, Ne.symm h8, Ne.symm h9, Ne.symm h10]

/-- Witness of C4: a CTS frame over a buffer of zeros. -/
theorem c4_unused_bytes_ff_witness :
    (encodeData stdCodes ctsScenario zeroBuffer).1 = [17, 2, 1, 255, 255, 0xCA, 0xFE, 0] ∧
    rd (encodeData stdCodes ctsScenario zeroBuffer).1 3 = 0xFF ∧
    rd (encodeData stdCodes ctsScenario zeroBuffer).1 4 = 0xFF :=
  ⟨by decide,
   (c4_unused_bytes_ff stdCodes ctsScenario zeroBuffer (by decide) (by decide)
      (by decide)).2.2.1 (by decide)⟩

/-- C5: on an 8-byte buffer, `decodeData` throws the decode exception when the first byte
is none of the five control codes, and returns normally when it is one of them. -/
theorem c5_decode_fails_iff_unknown (codes : CtrlCodes) (f : TPCMFrame) (buffer : Buffer)
    (hlen : buffer.length = 8) :
    (rd buffer 0 ∉ codes.all →
      (decodeData codes f buffer).2
        = .error (.decodeException "[TPCMFrame::decodeData] Unknown Ctrl type")) ∧
    (rd buffer 0 ∈ codes.all → (decodeData codes f buffer).2 = .ok ()) := by
  obtain ⟨a, b, c, d, e, g, h, k, rfl⟩ := length_eight buffer hlen
  simp only [CtrlCodes.all, List.mem_cons, List.mem_singleton, List.not_mem_nil, or_false,
    not_or, decodeData]
  constructor
  · rintro ⟨h1, h2, h3, h4, h5⟩
    simp [h1, h2, h3, h4, h5]
  · intro hk
    split_ifs <;> first | rfl | (exfalso; tauto)

/-- Witness of C5: a buffer starting with `0x42` is rejected, one starting with the RTS
code is accepted. -/
theorem c5_decode_fails_iff_unknown_witness :
    (decodeData stdCodes TPCMFrame.new [0x42, 0, 0, 0, 0, 0, 0, 0]).2
        = .error (.decodeException "[TPCMFrame::decodeData] Unknown Ctrl type") ∧
    (decodeData stdCodes TPCMFrame.new [0x10, 0x14, 0, 3, 0, 0xCA, 0xFE, 0]).2 = .ok () :=
  ⟨(c5_decode_fails_iff_unknown stdCodes TPCMFrame.new [0x42, 0, 0, 0, 0, 0, 0, 0]
      (by decide)).1 (by decide),
   (c5_decode_fails_iff_unknown stdCodes TPCMFrame.new [0x10, 0x14, 0, 3, 0, 0xCA, 0xFE, 0]
      (by decide)).2 (by decide)⟩

/-- C6 (evaluation at the failing input): encoding a freshly constructed frame, whose
control type `0` is none of the known codes, fails with the decode exception; the failure
is not an encode exception, whatever its message. Whatever the control codes, encoding a
frame whose control type is none of them fails with the decode exception. -/
theorem c6_encode_unknown_throws_decode_exception :
    encodeData stdCodes TPCMFrame.new zeroBuffer
      = ([0, 255, 255, 255, 255, 255, 255, 255],
         .error (.decodeException "[TPCMFrame::encodeData] Unknown Ctrl Type")) ∧
    (encodeData stdCodes (TPCMFrame.clear rtsScenario) zeroBuffer).2
      = .error (.decodeException "[TPCMFrame::encodeData] Unknown Ctrl Type") ∧
    (∀ msg : String,
      (encodeData stdCodes TPCMFrame.new zeroBuffer).2 ≠ .error (.encodeException msg)) ∧
    (∀ (codes : CtrlCodes) (f : TPCMFrame) (buffer : Buffer), f.mCtrlType ∉ codes.all →
      (encodeData codes f buffer).2
        = .error (.decodeException "[TPCMFrame::encodeData] Unknown Ctrl Type")) := by
  refine ⟨by decide, by decide, ?_, ?_⟩
  · intro msg h
    have h2 : (encodeData stdCodes TPCMFrame.new zeroBuffer).2
        = .error (.decodeException "[TPCMFrame::encodeData] Unknown Ctrl Type") := by decide
    rw [h2] at h
    cases h
  · intro codes f buffer hk
    simp only [CtrlCodes.all, List.mem_cons, List.mem_singleton, List.not_mem_nil, or_false,
      not_or] at hk
    obtain ⟨k1, k2, k3, k4, k5⟩ := hk
    simp [encodeData, k1, k2, k3, k4, k5]

/-- C8: for an RTS, CTS or ConnAbort frame with a data PGN below `2 ^ 24`, encoding over
any 8-byte buffer succeeds, decoding the result into a cleared frame succeeds, and the
decoded frame has the same control type, the same data PGN and the same type-specific
fields: message size, total packets and max packets for RTS; packets to send and next
packet for CTS; abort reason for ConnAbort. -/
theorem c8_roundtrip_rts_cts_abort (codes : CtrlCodes) (f g : TPCMFrame) (buffer : Buffer)
    (hv : codes.Valid) (hwf : f.WF) (hpgn : f.mDataPgn < 2 ^ 24) (hlen : buffer.length = 8)
    (hty : f.mCtrlType = codes.rts ∨ f.mCtrlType = codes.cts ∨ f.mCtrlType = codes.abort) :
    (encodeData codes f buffer).2 = .ok () ∧
    (decodeData codes (TPCMFrame.clear g) (encodeData codes f buffer).1).2 = .ok () ∧
    (decodeData codes (TPCMFrame.clear g) (encodeData codes f buffer).1).1.mCtrlType
      = f.mCtrlType ∧
    (decodeData codes (TPCMFrame.clear g) (encodeData codes f buffer).1).1.mDataPgn
      = f.mDataPgn ∧
    (f.mCtrlType = codes.rts →
      (decodeData codes (TPCMFrame.clear g) (encodeData codes f buffer).1).1.mTotalMsgSize
        = f.mTotalMsgSize ∧
      (decodeData codes (TPCMFrame.clear g) (encodeData codes f buffer).1).1.mTotalPackets
        = f.mTotalPackets ∧
      (decodeData codes (TPCMFrame.clear g) (encodeData codes f buffer).1).1.mMaxPackets
        = f.mMaxPackets) ∧
    (f.mCtrlType = codes.cts →
      (decodeData codes (TPCMFrame.clear g) (encodeData codes f buffer).1).1.mPacketsToTx
        = f.mPacketsToTx ∧
      (decodeData codes (TPCMFrame.clear g) (encodeData codes f buffer).1).1.mNextPacket
        = f.mNextPacket) ∧
    (f.mCtrlType = codes.abort →
      (decodeData codes (TPCMFrame.clear g) (encodeData codes f buffer).1).1.mAbortReason
        = f.mAbortReason) := by
  obtain ⟨b0, b1, b2, b3, b4, b5, b6, b7, rfl⟩ := length_eight buffer hlen
  obtain ⟨h1, h2, h3, h4, h5, h6, h7, h8, h9, h10⟩ := Valid.distinct hv
  have hsz : f.mTotalMsgSize < 65536 := hwf.2.1
  have hp := le24_roundtrip f.mDataPgn (by simpa using hpgn)
  have hs := le16_roundtrip f.mTotalMsgSize hsz
  rcases hty with hk | hk | hk <;>
    simp [encodeData, decodeData, hk, encodePgn, encodeRTS, encodeCTS,
      encodeConnAbort, decodePgn, decodeRTS, decodeCTS, decodeConnAbort, wr, rd, memset,
      TP_CM_SIZE, TPCMFrame.clear, h1, h2, h3, h4, h5, h6, h7,
      h8, h9, h10, Ne.symm h1, Ne.symm h2, Ne.symm h3, Ne.symm h4, Ne.symm h5, Ne.symm h6,
      Ne.symm h7, Ne.symm h8, Ne.symm h9, Ne.symm h10]
  · exact ⟨hp, hs⟩
  · exact hp
  · exact hp

/-- Witness of C8: the RTS scenario frame, with a burst limit of 5, survives encoding and
decoding. -/
theorem c8_roundtrip_rts_cts_abort_witness :
    (decodeData stdCodes (TPCMFrame.clear ctsScenario)
      (encodeData stdCodes { rtsScenario with mMaxPackets := 5 } zeroBuffer).1).1
      = { rtsScenario with mMaxPackets := 5 } ∧
    (decodeData stdCodes (TPCMFrame.clear ctsScenario)
      (encodeData stdCodes { rtsScenario with mMaxPackets := 5 } zeroBuffer).1).1.mDataPgn
      = 0x00FECA :=
  ⟨by decide,
   (c8_roundtrip_rts_cts_abort stdCodes { rtsScenario with mMaxPackets := 5 } ctsScenario
      zeroBuffer (by decide) (by decide) (by decide) (by decide)
      (Or.inl (by decide))).2.2.2.1⟩

end J1939

namespace Sender

open J1939

/-! ## Auxiliary facts about the string primitives -/

theorem findAux_none {p : Char → Bool} :
    ∀ (l : List Char) (i : Nat), findAux p l i = none → ∀ c ∈ l, p c = false
  | [], _, _ => by simp
  | c :: cs, i, h => by
    unfold findAux at h
    by_cases hc : p c = true
    · simp [hc] at h
    · simp only [hc, Bool.false_eq_true, if_false] at h
      intro x hx
      rcases List.mem_cons.1 hx with rfl | hx
      · simpa using hc
      · exact findAux_none cs (i + 1) h x hx

theorem findAux_some {p : Char → Bool} :
    ∀ (l : List Char) (i j : Nat), findAux p l i = some j →
      i ≤ j ∧ j < i + l.length ∧ (∃ c, l[j - i]? = some c ∧ p c = true) ∧
      l.take (j - i) = l.takeWhile (fun x => !p x)
  | [], _, _, h => by simp [findAux] at h
  | c :: cs, i, j, h => by
    unfold findAux at h
    by_cases hc : p c = true
    · simp only [hc, if_true, Option.some.injEq] at h
      subst h
      simp [hc]
    · simp only [hc, Bool.false_eq_true, if_false] at h
      obtain ⟨h1, h2, ⟨x, hx, hpx⟩, h4⟩ := findAux_some cs (i + 1) j h
      have hji : j - i = (j - (i + 1)) + 1 := by omega
      refine ⟨by omega, by simp only [List.length_cons]; omega, ⟨x, ?_, hpx⟩, ?_⟩
      · rw [hji, List.getElem?_cons_succ]; exact hx
      · rw [hji, List.take_succ_cons, h4]
        simp [List.takeWhile_cons, hc]

/-- The part of a line before its first occurrence of `c` (all of it when there is none),
computed the way `parseLine` does. -/
theorem substr_find_first_of (line : List Char) (c : Char) :
    substr line 0 (find_first_of line c 0) = line.takeWhile (fun x => x != c) := by
  unfold find_first_of substr
  simp only [List.drop_zero]
  cases h : findAux (fun x => x == c) line 0 with
  | none =>
    have hall := findAux_none line 0 h
    simp only
    symm
    rw [List.takeWhile_eq_self_iff]
    intro x hx
    have := hall x hx
    simpa [bne] using this
  | some j =>
    obtain ⟨_, _, _, h4⟩ := findAux_some line 0 j h
    simpa [bne] using h4

theorem substr_subset (s : List Char) (pos : Nat) (len : Option Nat) :
    ∀ c ∈ substr s pos len, c ∈ s := by
  intro c hc
  unfold substr at hc
  cases len with
  | none => exact List.mem_of_mem_drop hc
  | some n => exact List.mem_of_mem_drop (List.mem_of_mem_take hc)

theorem splitLoop_none (s : List Char) (fuel : Nat) (acc : List (List Char)) :
    splitLoop s fuel none acc = some acc := by
  cases fuel <;> rfl

theorem splitLoop_subset (s : List Char) :
    ∀ (fuel : Nat) (start : Option Nat) (acc r : List (List Char)),
      (∀ t ∈ acc, ∀ c ∈ t, c ∈ s) → splitLoop s fuel start acc = some r →
      ∀ t ∈ r, ∀ c ∈ t, c ∈ s
  | fuel, none, acc, r, hacc, h => by
    rw [splitLoop_none] at h
    cases h; exact hacc
  | 0, some _, _, _, _, h => by simp [splitLoop] at h
  | fuel + 1, some st, acc, r, hacc, h => by
    unfold splitLoop at h
    refine splitLoop_subset s fuel _ _ r ?_ h
    intro t ht
    rcases List.mem_append.1 ht with ht | ht
    · exact hacc t ht
    · rw [List.mem_singleton] at ht
      subst ht
      exact substr_subset s _ _

/-- Every character of a token returned by `splitTokens` occurs in the argument. -/
theorem splitTokens_subset (s : List Char) : ∀ t ∈ splitTokens s, ∀ c ∈ t, c ∈ s := by
  unfold splitTokens
  cases h : splitLoop s (s.length + 1) (some 0) [] with
  | none => simp
  | some r =>
    simp only [Option.getD_some]
    exact splitLoop_subset s _ _ [] r (by simp) h

/-- One iteration of the loop of `splitTokens` moves the start position forward and keeps
it inside the string. -/
theorem splitLoop_progress (s : List Char) (st j : Nat) (hst : st ≤ s.length)
    (h : find_first_not_of s ' '
          (match find_first_of s ' ' st with
            | none => s.length
            | some e => e) = some j) :
    st < j ∧ j < s.length := by
  unfold find_first_not_of at h
  cases hf : find_first_of s ' ' st with
  | none =>
    rw [hf] at h
    simp [findAux] at h
  | some e =>
    rw [hf] at h
    simp only at h
    unfold find_first_of at hf
    obtain ⟨e1, e2, ⟨x, hx, hpx⟩, _⟩ := findAux_some _ _ _ hf
    obtain ⟨j1, j2, ⟨y, hy, hpy⟩, _⟩ := findAux_some _ _ _ h
    simp only [List.length_drop] at e2 j2
    refine ⟨?_, by omega⟩
    rcases Nat.lt_or_ge st j with hlt | hge
    · exact hlt
    · exfalso
      have hje : j = e := by omega
      have hes : e = st := by omega
      subst hje hes
      simp only [Nat.sub_self] at hx hy
      rw [hx] at hy
      cases hy
      simp only [beq_iff_eq] at hpx
      subst hpx
      simp at hpy

/-- The loop of `splitTokens` ends within `s.length - start + 1` iterations. -/
theorem splitLoop_total (s : List Char) :
    ∀ (fuel st : Nat) (acc : List (List Char)), st ≤ s.length → s.length < st + fuel →
      ∃ r, splitLoop s fuel (some st) acc = some r
  | 0, st, _, h1, h2 => by omega
  | fuel + 1, st, acc, h1, h2 => by
    unfold splitLoop
    simp only
    cases hn : find_first_not_of s ' '
          (match find_first_of s ' ' st with
            | none => s.length
            | some e => e) with
    | none => exact ⟨_, splitLoop_none s fuel _⟩
    | some j =>
      obtain ⟨p1, p2⟩ := splitLoop_progress s st j h1 hn
      exact splitLoop_total s fuel j _ (by omega) (by omega)

/-- The function `splitTokens` returns the list its loop ends with: the bound on the
iterations is never reached. -/
theorem splitTokens_eq_loop (s : List Char) :
    splitLoop s (s.length + 1) (some 0) [] = some (splitTokens s) := by
  obtain ⟨r, hr⟩ := splitLoop_total s (s.length + 1) 0 [] (by omega) (by omega)
  unfold splitTokens
  rw [hr]; rfl

/-! ## The tokens of a string -/

theorem tokenRuns_cons_ne (c : Char) (hc : c ≠ ' ') :
    ∀ cs : List Char, tokenRuns (c :: cs)
      = (c :: cs.takeWhile (fun x => x != ' ')) :: tokenRuns (cs.dropWhile (fun x => x != ' '))
  | [] => by simp [tokenRuns, hc]
  | d :: ds => by
    by_cases hd : d = ' '
    · subst hd
      simp [tokenRuns, hc]
    · have ih := tokenRuns_cons_ne d hd ds
      rw [tokenRuns]
      simp only [hc, if_false, List.head?_cons, Option.some.injEq, hd, ih]
      simp [List.takeWhile_cons, List.dropWhile_cons, hd]

theorem tokenRuns_dropWhile_space :
    ∀ l : List Char, tokenRuns (l.dropWhile (fun x => x == ' ')) = tokenRuns l
  | [] => by simp
  | c :: cs => by
    by_cases hc : c = ' '
    · subst hc
      simp only [List.dropWhile_cons, beq_self_eq_true, if_true]
      rw [tokenRuns_dropWhile_space cs]
      simp [tokenRuns]
    · simp [List.dropWhile_cons, hc]

theorem tokenRuns_all_spaces :
    ∀ l : List Char, ¬ (l.takeWhile (fun x => x == ' ')).length < l.length → tokenRuns l = []
  | [], _ => by simp [tokenRuns]
  | c :: cs, h => by
    by_cases hc : c = ' '
    · subst hc
      simp only [List.takeWhile_cons, beq_self_eq_true, if_true, List.length_cons,
        Nat.add_lt_add_iff_right] at h
      simp [tokenRuns, tokenRuns_all_spaces cs h]
    · simp [List.takeWhile_cons, hc] at h

theorem tokenRuns_after_spaces :
    ∀ l : List Char, (l.takeWhile (fun x => x == ' ')).length < l.length →
      (l.dropWhile (fun x => x == ' ')).takeWhile (fun x => x != ' ')
        :: tokenRuns ((l.dropWhile (fun x => x == ' ')).dropWhile (fun x => x != ' '))
      = tokenRuns l
  | [], h => by simp at h
  | c :: cs, h => by
    by_cases hc : c = ' '
    · subst hc
      simp only [List.takeWhile_cons, beq_self_eq_true, if_true, List.length_cons,
        Nat.add_lt_add_iff_right] at h
      simp only [List.dropWhile_cons, beq_self_eq_true, if_true]
      rw [tokenRuns_after_spaces cs h]
      simp [tokenRuns]
    · rw [tokenRuns_cons_ne c hc]
      simp [List.takeWhile_cons, List.dropWhile_cons, hc]

theorem takeWhile_space_pos (l : List Char)
    (h0 : (l.takeWhile (fun x => x != ' ')).length = 0)
    (hpos : 0 < (l.dropWhile (fun x => x != ' ')).length) :
    0 < ((l.dropWhile (fun x => x != ' ')).takeWhile (fun x => x == ' ')).length := by
  cases l with
  | nil => simp at hpos
  | cons c cs =>
    by_cases hc : c = ' '
    · subst hc
      simp [List.takeWhile_cons, List.dropWhile_cons]
    · simp [List.takeWhile_cons, hc] at h0

theorem findAux_eq (p : Char → Bool) :
    ∀ (l : List Char) (i : Nat), findAux p l i
      = if (l.takeWhile (fun x => !p x)).length < l.length
        then some (i + (l.takeWhile (fun x => !p x)).length) else none
  | [], _ => by simp [findAux]
  | c :: cs, i => by
    unfold findAux
    by_cases hc : p c = true
    · simp [hc, List.takeWhile_cons]
    · simp only [hc, Bool.false_eq_true, if_false]
      rw [findAux_eq p cs (i + 1)]
      simp only [Bool.not_eq_true] at hc
      simp only [List.takeWhile_cons, hc, Bool.not_false, if_true, List.length_cons,
        Nat.add_lt_add_iff_right]
      split_ifs
      · simp; omega
      · rfl

theorem take_length_takeWhile (p : Char → Bool) (l : List Char) :
    l.take (l.takeWhile p).length = l.takeWhile p := by
  have h := List.takeWhile_prefix p (l := l)
  exact (List.prefix_iff_eq_take.1 h).symm

theorem drop_length_takeWhile (p : Char → Bool) (l : List Char) :
    l.drop (l.takeWhile p).length = l.dropWhile p := by
  have h := List.drop_left (l.takeWhile p) (l.dropWhile p)
  rwa [List.takeWhile_append_dropWhile] at h

/-- The loop of `splitTokens`, started at a position within the string, first pushes the
run of non-space characters found there (empty when a space or the end is there) and then
the maximal runs of the rest. -/
theorem splitLoop_runs (s : List Char) :
    ∀ (fuel st : Nat) (acc : List (List Char)), st ≤ s.length → s.length < st + fuel →
      splitLoop s fuel (some st) acc
        = some (acc ++ ((s.drop st).takeWhile (fun x => x != ' ')
            :: tokenRuns ((s.drop st).dropWhile (fun x => x != ' '))))
  | 0, st, _, h1, h2 => by omega
  | fuel + 1, st, acc, h1, h2 => by
    have hbne : (fun x : Char => !(x == ' ')) = (fun x => x != ' ') := rfl
    have hbeq : (fun x : Char => !(x != ' ')) = (fun x => x == ' ') := by
      funext x; simp [bne]
    have hle := (List.takeWhile_prefix (fun x : Char => x != ' ') (l := s.drop st)).length_le
    simp only [List.length_drop] at hle
    -- the end position of the token
    have he : (match find_first_of s ' ' st with
        | none => s.length
        | some e => e) = st + ((s.drop st).takeWhile (fun x => x != ' ')).length := by
      unfold find_first_of
      rw [findAux_eq, hbne]
      split_ifs with hlt
      · rfl
      · simp only [List.length_drop] at hlt ⊢
        omega
    unfold splitLoop
    simp only
    rw [he]
    have hsub : substr s st (some (st + ((s.drop st).takeWhile (fun x => x != ' ')).length - st))
        = (s.drop st).takeWhile (fun x => x != ' ') := by
      unfold substr
      simp only [Nat.add_sub_cancel_left]
      exact take_length_takeWhile _ _
    rw [hsub]
    have hdrop : s.drop (st + ((s.drop st).takeWhile (fun x => x != ' ')).length)
        = (s.drop st).dropWhile (fun x => x != ' ') := by
      rw [← List.drop_drop]
      exact drop_length_takeWhile _ _
    have hlen' : ((s.drop st).dropWhile (fun x => x != ' ')).length
        = s.length - (st + ((s.drop st).takeWhile (fun x => x != ' ')).length) := by
      rw [← hdrop, List.length_drop]
    unfold find_first_not_of
    rw [findAux_eq, hbeq, hdrop]
    split_ifs with hlt
    · -- a further token starts after the spaces
      have hmove : 0 < ((s.drop st).takeWhile (fun x => x != ' ')).length
          + (((s.drop st).dropWhile (fun x => x != ' ')).takeWhile (fun x => x == ' ')).length := by
        rcases Nat.eq_zero_or_pos ((s.drop st).takeWhile (fun x => x != ' ')).length
          with h0 | h0
        · have := takeWhile_space_pos (s.drop st) h0 (by omega)
          omega
        · omega
      rw [splitLoop_runs s fuel _ _ (by omega) (by omega)]
      have hdj : s.drop (st + ((s.drop st).takeWhile (fun x => x != ' ')).length
            + (((s.drop st).dropWhile (fun x => x != ' ')).takeWhile
                (fun x => x == ' ')).length)
          = ((s.drop st).dropWhile (fun x => x != ' ')).dropWhile (fun x => x == ' ') := by
        rw [← List.drop_drop, hdrop]
        exact drop_length_takeWhile _ _
      rw [hdj, tokenRuns_after_spaces _ hlt]
      simp
    · rw [splitLoop_none, tokenRuns_all_spaces _ hlt]

/-- The function `splitTokens` returns the run of non-space characters the string starts
with, empty or not, followed by the maximal runs of non-space characters of the rest. -/
theorem splitTokens_runs (s : List Char) :
    splitTokens s = s.takeWhile (fun x => x != ' ')
      :: tokenRuns (s.dropWhile (fun x => x != ' ')) := by
  unfold splitTokens
  rw [splitLoop_runs s (s.length + 1) 0 [] (by omega) (by omega)]
  simp

/-- On a string that starts with a character other than the space, `splitTokens` returns
exactly the maximal runs of non-space characters. -/
theorem splitTokens_eq_tokenRuns (c : Char) (cs : List Char) (hc : c ≠ ' ') :
    splitTokens (c :: cs) = tokenRuns (c :: cs) := by
  rw [splitTokens_runs, tokenRuns_cons_ne c hc]
  simp [List.takeWhile_cons, List.dropWhile_cons, hc]

/-- On the empty string and on a string that starts with a space, `splitTokens` returns an
empty token followed by the maximal runs of non-space characters. -/
theorem splitTokens_leading_space (s : List Char) (hs : s.head? ≠ some ' ' → s = []) :
    splitTokens s = [] :: tokenRuns s := by
  rw [splitTokens_runs]
  cases s with
  | nil => simp
  | cons c cs =>
    have hc : c = ' ' := by
      by_contra hne
      have := hs (by simpa using hne)
      cases this
    subst hc
    simp [List.takeWhile_cons, List.dropWhile_cons]

/-- Every run returned by `tokenRuns` is non-empty and free of spaces. -/
theorem tokenRuns_tokens :
    ∀ (s : List Char), ∀ t ∈ tokenRuns s, t ≠ [] ∧ ' ' ∉ t
  | [] => by simp [tokenRuns]
  | c :: cs => by
    have ih := tokenRuns_tokens cs
    unfold tokenRuns
    split_ifs with h1 h2
    · exact ih
    · intro t ht
      rcases List.mem_cons.1 ht with rfl | ht
      · simp [Ne.symm h1]
      · exact ih t ht
    · cases hr : tokenRuns cs with
      | nil =>
        intro t ht
        simp only [List.mem_singleton] at ht
        subst ht
        simp [Ne.symm h1]
      | cons r rs =>
        rw [hr] at ih
        intro t ht
        simp only [List.mem_cons] at ht
        rcases ht with rfl | ht
        · have := ih r (by simp)
          simp [Ne.symm h1, this.2]
        · exact ih t (by simp [ht])

/-! ## Auxiliary facts about the command tree -/

theorem findSubCommand_suffix :
    ∀ (args : List (List Char)) (cmd : CommandHelper), (findSubCommand cmd args).2 <:+ args
  | [], cmd => by simp [findSubCommand]
  | arg :: rest, cmd => by
    unfold findSubCommand
    split
    · exact (findSubCommand_suffix rest _).trans (List.suffix_cons arg rest)
    · exact List.suffix_refl _

theorem dispatch_callWithArgs (found : CommandHelper × List (List Char))
    (func : CmdFuncWithArgs) (args : List (List Char))
    (h : dispatch found = .callWithArgs func args) : args = found.2 := by
  unfold dispatch at h
  simp only at h
  split_ifs at h
  split at h
  · cases h; rfl
  · cases h
  · cases h

/-! ## Properties of the sender shell -/

/-- The `priority` branch on a value `std::stoul` reads as `parsed`: what decides is
`parsed` modulo `2 ^ 32`; below 8 it is stored, otherwise the state is kept and the range
error is written. -/
theorem setFramePriority_ok {S : Type} (st : SetFrameState S) (value : List Char)
    (parsed : Nat) (h : stoul value 10 = .ok parsed) :
    (parsed % 4294967296 < 8 →
      setFramePriority value st
        = ⟨{ st with frame := { st.frame with mPriority := parsed % 4294967296 } }, [],
            .ok ()⟩) ∧
    (8 ≤ parsed % 4294967296 →
      setFramePriority value st = ⟨st, ["Priority out of range"], .ok ()⟩) := by
  have hm : ∀ n : Nat, n &&& 0x07 = n % 8 := fun n => Nat.and_pow_two_sub_one_eq_mod n 3
  constructor
  · intro hlt
    have h1 : parsed % 4294967296 = (parsed % 4294967296) &&& 0x07 := by rw [hm]; omega
    have h2 : parsed % 4294967296 % 256 = parsed % 4294967296 := by omega
    simp [setFramePriority, h, J1939_PRIORITY_MASK, ← h1, J1939Frame.setPriority, h2]
  · intro hge
    have h1 : parsed % 4294967296 ≠ (parsed % 4294967296) &&& 0x07 := by rw [hm]; omega
    simp [setFramePriority, h, J1939_PRIORITY_MASK, h1]

/-- The `source` branch on a value `std::stoul` reads as `parsed`: what decides is `parsed`
modulo `2 ^ 32`; below 256 it is stored, otherwise the state is kept and the range error is
written. -/
theorem setFrameSource_ok {S : Type} (st : SetFrameState S) (value : List Char)
    (parsed : Nat) (h : stoul value 16 = .ok parsed) :
    (parsed % 4294967296 < 256 →
      setFrameSource value st
        = ⟨{ st with frame := { st.frame with mSrcAddr := parsed % 4294967296 } }, [],
            .ok ()⟩) ∧
    (256 ≤ parsed % 4294967296 →
      setFrameSource value st = ⟨st, ["Source address out of range"], .ok ()⟩) := by
  have hm : ∀ n : Nat, n &&& 0xFF = n % 256 := fun n => Nat.and_pow_two_sub_one_eq_mod n 8
  constructor
  · intro hlt
    have h1 : parsed % 4294967296 = (parsed % 4294967296) &&& 0xFF := by rw [hm]; omega
    have h2 : parsed % 4294967296 % 256 = parsed % 4294967296 := by omega
    simp [setFrameSource, h, J1939_SRC_ADDR_MASK, ← h1, J1939Frame.setSrcAddr, h2]
  · intro hge
    have h1 : parsed % 4294967296 ≠ (parsed % 4294967296) &&& 0xFF := by rw [hm]; omega
    simp [setFrameSource, h, J1939_SRC_ADDR_MASK, h1]

/-- C7 (evaluation at the failing input): the line `set frame f priority: 4294967301`
reaches the set-frame handler, whose parameters are passed on as key `priority` and value
`4294967301`; the value `4294967301` of a `priority:` parameter
is read as `2 ^ 32 + 5`, narrowed to 5 in the `u32` local, passes the mask test and is
stored as priority 5; the value `1000000AB` of a `source:` parameter is stored as `0xAB`;
the value `18446744073709551616` makes `std::stoul` throw `std::out_of_range`, which the
handler does not catch. Values within the `u32` range are treated as the mask test
promises: 9 is rejected with the frame unchanged, `0x2A` is stored. In general the handler
decides on the parsed number modulo `2 ^ 32`, so for a parsed number below `2 ^ 32` it
stores the number exactly when it equals itself under the mask and otherwise keeps the
frame. -/
theorem c7_narrowed_before_mask_test :
    parseLine baseCommand "set frame f priority: 4294967301".toList
      = .callWithArgs .parseSetFrameCommand
          ["f".toList, "priority:".toList, "4294967301".toList] ∧
    paramCalls ["priority:".toList, "4294967301".toList]
      = [("priority".toList, "4294967301".toList)] ∧
    setFrameParam idleBranch idleBranch "priority".toList "4294967301".toList sampleState
      = ⟨{ sampleState with frame := ⟨5, 0xFECA, 0x11⟩ }, [], .ok ()⟩ ∧
    setFrameParam idleBranch idleBranch "source".toList "1000000AB".toList sampleState
      = ⟨{ sampleState with frame := ⟨6, 0xFECA, 0xAB⟩ }, [], .ok ()⟩ ∧
    setFrameParam idleBranch idleBranch "priority".toList "18446744073709551616".toList
        sampleState
      = ⟨sampleState, [], .error .outOfRange⟩ ∧
    setFrameParam idleBranch idleBranch "priority".toList "9".toList sampleState
      = ⟨sampleState, ["Priority out of range"], .ok ()⟩ ∧
    setFrameParam idleBranch idleBranch "source".toList "0x2A".toList sampleState
      = ⟨{ sampleState with frame := ⟨6, 0xFECA, 0x2A⟩ }, [], .ok ()⟩ ∧
    (∀ (S : Type) (st : SetFrameState S) (value : List Char) (parsed : Nat),
      stoul value 10 = .ok parsed →
      (parsed % 4294967296 < 8 →
        setFramePriority value st
          = ⟨{ st with frame := { st.frame with mPriority := parsed % 4294967296 } }, [],
              .ok ()⟩) ∧
      (8 ≤ parsed % 4294967296 →
        setFramePriority value st = ⟨st, ["Priority out of range"], .ok ()⟩)) ∧
    (∀ (S : Type) (st : SetFrameState S) (value : List Char) (parsed : Nat),
      stoul value 16 = .ok parsed →
      (parsed % 4294967296 < 256 →
        setFrameSource value st
          = ⟨{ st with frame := { st.frame with mSrcAddr := parsed % 4294967296 } }, [],
              .ok ()⟩) ∧
      (256 ≤ parsed % 4294967296 →
        setFrameSource value st = ⟨st, ["Source address out of range"], .ok ()⟩)) ∧
    (∀ (S : Type) (st : SetFrameState S) (value : List Char) (v : Nat),
      stoul value 10 = .ok v → v < 4294967296 →
      (v = v &&& 0x07 →
        setFramePriority value st
          = ⟨{ st with frame := { st.frame with mPriority := v } }, [], .ok ()⟩) ∧
      (v ≠ v &&& 0x07 →
        setFramePriority value st = ⟨st, ["Priority out of range"], .ok ()⟩)) ∧
    (∀ (S : Type) (st : SetFrameState S) (value : List Char) (w : Nat),
      stoul value 16 = .ok w → w < 4294967296 →
      (w = w &&& 0xFF →
        setFrameSource value st
          = ⟨{ st with frame := { st.frame with mSrcAddr := w } }, [], .ok ()⟩) ∧
      (w ≠ w &&& 0xFF →
        setFrameSource value st = ⟨st, ["Source address out of range"], .ok ()⟩)) := by
  refine ⟨by decide, by decide, by decide, by decide, by decide, by decide, by decide,
    fun S st value parsed h => setFramePriority_ok st value parsed h,
    fun S st value parsed h => setFrameSource_ok st value parsed h, ?_, ?_⟩
  · intro S st value v h hv
    have hm : v &&& 0x07 = v % 8 := Nat.and_pow_two_sub_one_eq_mod v 3
    have hmod : v % 4294967296 = v := Nat.mod_eq_of_lt hv
    have hk := setFramePriority_ok st value v h
    rw [hmod] at hk
    exact ⟨fun he => hk.1 (by rw [hm] at he; omega), fun hn => hk.2 (by rw [hm] at hn; omega)⟩
  · intro S st value w h hw
    have hm : w &&& 0xFF = w % 256 := Nat.and_pow_two_sub_one_eq_mod w 8
    have hmod : w % 4294967296 = w := Nat.mod_eq_of_lt hw
    have hk := setFrameSource_ok st value w h
    rw [hmod] at hk
    exact ⟨fun he => hk.1 (by rw [hm] at he; omega), fun hn => hk.2 (by rw [hm] at hn; omega)⟩

/-- C9 (evaluation at the failing input): on a string that starts with a space
`splitTokens` returns an empty first token, and on the empty string it returns one empty
token; so the line " list frames" is looked up under the empty command word and is
answered with an error. In general, on the empty string and on a string that starts with
a space the result is an empty token followed by the maximal runs of non-space characters,
and on any other string it is exactly those runs. -/
theorem c9_split_tokens_leading_space :
    splitTokens " a".toList = [[], ['a']] ∧
    splitTokens [] = [[]] ∧
    splitTokens " list frames".toList = ["".toList, "list".toList, "frames".toList] ∧
    parseLine baseCommand " list frames".toList = .stderr "This command does not exist" ∧
    (∀ s : List Char, (s.head? ≠ some ' ' → s = []) → splitTokens s = [] :: tokenRuns s) ∧
    (∀ (c : Char) (cs : List Char), c ≠ ' ' → splitTokens (c :: cs) = tokenRuns (c :: cs)) :=
  ⟨by decide, by decide, by decide, by decide, splitTokens_leading_space,
   splitTokens_eq_tokenRuns⟩

/-- C10: for a non-empty line, the tokens `parseLine` computes are `splitTokens` of the
part of the line before its first `#` (the whole line when it has none), and the effect of
`parseLine` is the dispatch of the command lookup on those tokens; none of the tokens, and
none of the tokens handed to a handler (which are a suffix of them), contains `#`; and two
non-empty lines that agree before their first `#` have the same effect. -/
theorem c10_parse_line_ignores_comment (base : CommandHelper) (line : List Char)
    (hne : line ≠ []) :
    lineTokens line = splitTokens (line.takeWhile (fun c => c != '#')) ∧
    parseLine base line
      = dispatch (findSubCommand base (splitTokens (line.takeWhile (fun c => c != '#')))) ∧
    (∀ t ∈ lineTokens line, '#' ∉ t) ∧
    (∀ func args, parseLine base line = .callWithArgs func args →
      args <:+ lineTokens line ∧ ∀ t ∈ args, '#' ∉ t) ∧
    (∀ other : List Char, other ≠ [] →
      other.takeWhile (fun c => c != '#') = line.takeWhile (fun c => c != '#') →
      parseLine base other = parseLine base line) := by
  have hT : ∀ l : List Char,
      lineTokens l = splitTokens (l.takeWhile (fun c => c != '#')) := by
    intro l; unfold lineTokens; rw [substr_find_first_of]
  have hP : ∀ l : List Char, l ≠ [] → parseLine base l
      = dispatch (findSubCommand base (splitTokens (l.takeWhile (fun c => c != '#')))) := by
    intro l hl
    unfold parseLine
    rw [hT l]
    simp [hl]
  have hH : ∀ t ∈ lineTokens line, '#' ∉ t := by
    intro t ht hc
    rw [hT line] at ht
    have hmem := splitTokens_subset _ t ht _ hc
    have := List.mem_takeWhile_imp hmem
    simp at this
  refine ⟨hT line, hP line hne, hH, ?_, ?_⟩
  · intro func args h
    rw [hP line hne, ← hT line] at h
    have hargs := dispatch_callWithArgs _ _ _ h
    have hsuf : args <:+ lineTokens line := by
      rw [hargs]; exact findSubCommand_suffix _ _
    exact ⟨hsuf, fun t ht => hH t (hsuf.subset ht)⟩
  · intro other ho heq
    rw [hP other ho, hP line hne, heq]

/-- Witness of C10: the comment of a set-frame line does not reach the handler. -/
theorem c10_parse_line_ignores_comment_witness :
    parseLine baseCommand "set frame x priority: 3 # source: 1".toList
      = .callWithArgs .parseSetFrameCommand ["x".toList, "priority:".toList, "3".toList] ∧
    parseLine baseCommand "set frame x priority: 3 # source: 1".toList
      = dispatch (findSubCommand baseCommand (splitTokens "set frame x priority: 3 ".toList)) :=
  ⟨by decide,
   (c10_parse_line_ignores_comment baseCommand "set frame x priority: 3 # source: 1".toList
      (by decide)).2.1⟩

/-! ## Auxiliary facts about command parameters -/

theorem processCommandParameters_acc :
    ∀ (arguments : List (List Char)) (acc : List (List Char × List Char)),
      (processCommandParameters recordCall arguments acc).1 = acc ++ paramCalls arguments
  | [], acc => by simp [paramCalls, processCommandParameters]
  | [key], acc => by
    simp only [paramCalls, processCommandParameters]
    split_ifs <;> simp
  | key :: value :: rest, acc => by
    simp only [paramCalls, processCommandParameters]
    split_ifs
    · rw [processCommandParameters_acc rest (recordCall _ value acc),
        processCommandParameters_acc rest (recordCall _ value [])]
      simp [recordCall]
    · simp

/-- The state `processCommandParameters` ends in is the callback folded over the recorded
calls. -/
theorem processCommandParameters_fold {σ : Type}
    (parserFunc : List Char → List Char → σ → σ) :
    ∀ (arguments : List (List Char)) (st : σ),
      (processCommandParameters parserFunc arguments st).1
        = (paramCalls arguments).foldl (fun s kv => parserFunc kv.1 kv.2 s) st
  | [], st => by simp [paramCalls, processCommandParameters]
  | [key], st => by
    simp only [paramCalls, processCommandParameters]
    split_ifs <;> simp
  | key :: value :: rest, st => by
    simp only [paramCalls, processCommandParameters]
    split_ifs
    · rw [processCommandParameters_fold parserFunc rest, processCommandParameters_acc]
      simp [recordCall]
    · simp

theorem find?_first {α : Type} (p : α → Bool) :
    ∀ (l : List α) (x : α), l.find? p = some x →
      ∃ before after, l = before ++ x :: after ∧ p x = true ∧ ∀ y ∈ before, p y = false
  | [], _, h => by simp at h
  | a :: l, x, h => by
    by_cases ha : p a = true
    · simp only [List.find?_cons, ha] at h
      cases h
      exact ⟨[], l, rfl, ha, by simp⟩
    · simp only [Bool.not_eq_true] at ha
      simp only [List.find?_cons, ha] at h
      obtain ⟨before, after, h1, h2, h3⟩ := find?_first p l x h
      refine ⟨a :: before, after, by simp [h1], h2, ?_⟩
      intro y hy
      rcases List.mem_cons.1 hy with rfl | hy
      · exact ha
      · exact h3 y hy

/-- The function `findSubCommand` returns a command reached by descending along a prefix of
the tokens, leaves the rest of the tokens, and stops only when the tokens are used up or
the leading one names no sub-command of the command reached. -/
theorem findSubCommand_descends :
    ∀ (args : List (List Char)) (cmd : CommandHelper),
      ∃ matched : List (List Char),
        args = matched ++ (findSubCommand cmd args).2 ∧
        Descends cmd matched (findSubCommand cmd args).1 ∧
        ((findSubCommand cmd args).2 = [] ∨
          ∃ t rest, (findSubCommand cmd args).2 = t :: rest ∧
            ∀ sub ∈ (findSubCommand cmd args).1.getSubCommands, sub.getCommand ≠ t)
  | [], cmd => ⟨[], by simp [findSubCommand], by
      simpa [findSubCommand] using Descends.stay cmd, Or.inl (by simp [findSubCommand])⟩
  | arg :: rest, cmd => by
    cases hf : cmd.getSubCommands.find? (fun sub => sub.getCommand == arg) with
    | none =>
      have hres : findSubCommand cmd (arg :: rest) = (cmd, arg :: rest) := by
        simp [findSubCommand, hf]
      rw [hres]
      refine ⟨[], by simp, Descends.stay cmd, Or.inr ⟨arg, rest, rfl, ?_⟩⟩
      intro sub hsub
      have := List.find?_eq_none.1 hf sub hsub
      simpa using this
    | some sub =>
      have hres : findSubCommand cmd (arg :: rest) = findSubCommand sub rest := by
        simp [findSubCommand, hf]
      rw [hres]
      obtain ⟨matched, h1, h2, h3⟩ := findSubCommand_descends rest sub
      obtain ⟨before, after, e1, e2, e3⟩ := find?_first _ _ _ hf
      refine ⟨arg :: matched, by rw [List.cons_append, ← h1], ?_, h3⟩
      refine Descends.step ⟨before, after, e1, by simpa using e2, ?_⟩ h2
      intro x hx
      simpa using e3 x hx

/-- Every token a handler receives from `parseLine` is non-empty: the tokenizer yields an
empty token only in first position, where it is the command word and names no command. -/
theorem handler_tokens_nonempty (line : List Char) (func : CmdFuncWithArgs)
    (args : List (List Char))
    (h : parseLine baseCommand line = .callWithArgs func args) : ∀ t ∈ args, t ≠ [] := by
  unfold parseLine at h
  split_ifs at h
  have hargs := dispatch_callWithArgs _ _ _ h
  have hsuf : args <:+ lineTokens line := by rw [hargs]; exact findSubCommand_suffix _ _
  have hrun : lineTokens line
      = (substr line 0 (find_first_of line '#' 0)).takeWhile (fun x => x != ' ')
        :: tokenRuns ((substr line 0 (find_first_of line '#' 0)).dropWhile
            (fun x => x != ' ')) := by
    unfold lineTokens; exact splitTokens_runs _
  have hothers : ∀ t ∈ tokenRuns ((substr line 0 (find_first_of line '#' 0)).dropWhile
      (fun x => x != ' ')), t ≠ [] := fun t ht => (tokenRuns_tokens _ t ht).1
  generalize (substr line 0 (find_first_of line '#' 0)).takeWhile (fun x => x != ' ')
    = first at hrun
  generalize tokenRuns ((substr line 0 (find_first_of line '#' 0)).dropWhile
    (fun x => x != ' ')) = others at hrun hothers
  by_cases hfirst : first = []
  · exfalso
    subst hfirst
    have hnone : baseCommand.getSubCommands.find? (fun sub => sub.getCommand == [])
        = none := List.find?_eq_none.2 (by decide)
    have hfind : findSubCommand baseCommand ([] :: others) = (baseCommand, [] :: others) := by
      simp only [findSubCommand, hnone]
    rw [hrun, hfind] at h
    have hno : baseCommand.getCmdFuncWithArgs = none ∧ baseCommand.getCmdFunc = none := by
      decide
    simp [dispatch, hno] at h
  · intro t ht
    have hmem : t ∈ lineTokens line := hsuf.subset ht
    rw [hrun] at hmem
    rcases List.mem_cons.1 hmem with rfl | hmem
    · exact hfirst
    · exact hothers t hmem

/-- No list a handler hands on to `processCommandParameters`, the tokens it received or
those after the first, has an empty key token. -/
theorem handler_arguments_keys (line : List Char) (func : CmdFuncWithArgs)
    (args arguments : List (List Char))
    (h : parseLine baseCommand line = .callWithArgs func args) (hsuf : arguments <:+ args) :
    ∀ (j : Nat) (key : List Char), arguments[2 * j]? = some key → key ≠ [] := by
  intro j key hk
  have hmem : key ∈ arguments := List.mem_iff_getElem?.2 ⟨_, hk⟩
  exact handler_tokens_nonempty line func args h key (hsuf.subset hmem)

/-! ## Properties of command parameters and command lookup -/

/-- C12: for every command tree and token list, `findSubCommand` returns; the command it
returns is reached from the given one by descending, for each token of a prefix of the
list in turn, into the first sub-command named by the token; the tokens it leaves are the
list without that prefix; and it stops there because the tokens are used up or the leading
one names no sub-command of the command reached. -/
theorem c12_find_sub_command (cmd : CommandHelper) (args : List (List Char)) :
    ∃ matched : List (List Char),
      args = matched ++ (findSubCommand cmd args).2 ∧
      Descends cmd matched (findSubCommand cmd args).1 ∧
      (findSubCommand cmd args).2 <:+ args ∧
      ((findSubCommand cmd args).2 = [] ∨
        ∃ t rest, (findSubCommand cmd args).2 = t :: rest ∧
          ∀ sub ∈ (findSubCommand cmd args).1.getSubCommands, sub.getCommand ≠ t) := by
  obtain ⟨matched, h1, h2, h3⟩ := findSubCommand_descends args cmd
  exact ⟨matched, h1, h2, ⟨matched, h1.symm⟩, h3⟩

end Sender
